import Mathlib

/-!
Cascade: the mproc UDL server entry point and the Dairy Farm filter UDL.

A shallow embedding of

* `src/udl_zoo/mproc/mproc_udl_server.hpp`: `mproc_udl_server_arg_t` and
  `MProcUDLServer::run_server`;
* `src/applications/demos/dairy_farm/filter_udl.cpp`:
  `DairyFarmFilterOCDPO::operator()`.

Effects are made explicit: every function returns, next to its outcome, the
list of observable events it issued, in program order.  A C++ exception is an
`Except.error`.
-/

namespace derecho.cascade

/-! ## `mproc_udl_server.hpp` -/

/-- The enumeration `DataFlowGraph::VertexExecutionEnvironment`.  The header
names only `UNKNOWN_EE`; the other enumerators live in `service_types.hpp`
and are kept as tagged values. -/
inductive VertexExecutionEnvironment where
  | UNKNOWN_EE
  | known (tag : Nat)
  deriving DecidableEq, Repr

/-- The enumeration `DataFlowGraph::Statefulness`; the header names only
`UNKNOWN_S`. -/
inductive Statefulness where
  | UNKNOWN_S
  | known (tag : Nat)
  deriving DecidableEq, Repr

/-- A `nlohmann::json` document: a default-constructed one is `null`, any
other is kept as its text. -/
inductive json where
  | null
  | document (text : String)
  deriving DecidableEq, Repr

/-- The struct `mproc_udl_server_arg_t`, field by field. -/
structure mproc_udl_server_arg_t where
  app_cwd : String
  objectpool_path : String
  udl_uuid : String
  udl_conf : json
  exe_env : VertexExecutionEnvironment
  exe_env_conf : json
  statefulness : Statefulness
  num_threads : Nat
  edges : json
  rbkeys : json
  deriving DecidableEq, Repr

/-- A default-initialised `mproc_udl_server_arg_t`: the member initialisers of
the struct (`app_cwd = "."`, `exe_env = UNKNOWN_EE`,
`statefulness = UNKNOWN_S`), empty strings and null documents elsewhere.
`num_threads` has no initialiser in the source, so its value is an argument. -/
def mproc_udl_server_arg_t.default_arg (num_threads : Nat) : mproc_udl_server_arg_t :=
  { app_cwd := "."
    objectpool_path := ""
    udl_uuid := ""
    udl_conf := json.null
    exe_env := VertexExecutionEnvironment.UNKNOWN_EE
    exe_env_conf := json.null
    statefulness := Statefulness.UNKNOWN_S
    num_threads := num_threads
    edges := json.null
    rbkeys := json.null }

/-- What `run_server` does that its caller can observe: the constructor call
on an argument, the `start` call on an instance with a wait flag, and the
destructor call on an instance when the local variable goes out of scope. -/
inductive ServerEvent (σ : Type) where
  | construct (arg : mproc_udl_server_arg_t)
  | start (server : σ) (wait : Bool)
  | destroy (server : σ)
  deriving DecidableEq, Repr

/-- Recognises a `start` call. -/
def ServerEvent.isStart {σ : Type} : ServerEvent σ → Bool
  | ServerEvent.start _ _ => true
  | _ => false

/-- The static member `MProcUDLServer::run_server(arg, wait)`:

    MProcUDLServer server(arg);
    server.start(wait);

Its return type is `void`.  The constructor and `start` are declared in the
header and defined in `mproc_udl_server_impl.hpp`, so they are the parameters
`ctor` and `start`, either of which may throw.  A constructor that throws
leaves no object behind: `start` and the destructor are not run.  Otherwise
the local `server` is destroyed when the function is left, normally or by an
exception out of `start`. -/
def run_server {σ ε : Type} (ctor : mproc_udl_server_arg_t → Except ε σ)
    (start : σ → Bool → Except ε Unit) (arg : mproc_udl_server_arg_t) (wait : Bool) :
    Except ε Unit × List (ServerEvent σ) :=
  match ctor arg with
  | Except.error e => (Except.error e, [ServerEvent.construct arg])
  | Except.ok server =>
    match start server wait with
    | Except.error e =>
      (Except.error e,
        [ServerEvent.construct arg, ServerEvent.start server wait, ServerEvent.destroy server])
    | Except.ok () =>
      (Except.ok (),
        [ServerEvent.construct arg, ServerEvent.start server wait, ServerEvent.destroy server])

/-- The configuration errors of section 7(d) of the specification. -/
inductive ConfigError where
  | missing_required_field
  | invalid_execution_environment
  deriving DecidableEq, Repr

/-- A server instance as far as the header shows it: it is built from one
configuration bundle. -/
structure MProcUDLServer where
  arg : mproc_udl_server_arg_t
  deriving DecidableEq, Repr

/-- Modelled from the spec: the constructor `MProcUDLServer(arg)`, whose body
is in `mproc_udl_server_impl.hpp`.  Section 7(d): a missing required field or
an invalid execution-environment kind is fatal at construction.  The
specification does not list the required fields, so `required` decides
whether they are all present. -/
def MProcUDLServer.construct (required : mproc_udl_server_arg_t → Bool)
    (arg : mproc_udl_server_arg_t) : Except ConfigError MProcUDLServer :=
  if required arg = false then Except.error ConfigError.missing_required_field
  else if arg.exe_env = VertexExecutionEnvironment.UNKNOWN_EE then
    Except.error ConfigError.invalid_execution_environment
  else Except.ok { arg := arg }

/-- Modelled from the spec: the member `MProcUDLServer::start(wait)`, whose
body is in `mproc_udl_server_impl.hpp`.  Section 4.5: it takes the server to
RUNNING; here it returns normally. -/
def MProcUDLServer.start (_server : MProcUDLServer) (_wait : Bool) : Except ConfigError Unit :=
  Except.ok ()

/-! ## `filter_udl.cpp` -/

/-- A `std::string`, as the sequence of its `char`s. -/
abbrev CppString := List Char

/-- The exceptions the callback itself can raise: `std::out_of_range`, from
`std::string::substr`. -/
inductive CppException where
  | out_of_range
  deriving DecidableEq, Repr

/-- The member `std::string::substr(pos)` with the default count: it throws
`std::out_of_range` when `pos > size()` and otherwise returns the characters
from position `pos` to the end. -/
def substr (s : CppString) (pos : Nat) : Except CppException CppString :=
  if pos > s.length then Except.error CppException.out_of_range else Except.ok (s.drop pos)

/-- The value of a C++ `float`: not-a-number, an infinity, or a finite value
given exactly. -/
inductive CFloat where
  | nan
  | neg_inf
  | pos_inf
  | finite (q : ℚ)

/-- The macro `FILTER_THRESHOLD`, `(0.9)`: a literal of type `double`, whose
value is the double nearest to nine tenths, 8106479329266893 / 2 ^ 53. -/
def FILTER_THRESHOLD : ℚ := 8106479329266893 / 9007199254740992

/-- The macro `CONF_FILTER_MODEL`. -/
def CONF_FILTER_MODEL : String := "filter-model"

/-- The comparison `prediction < t` of a `float` with a `double`: the float is
widened exactly, a comparison with not-a-number is false. -/
def CFloat.lt (p : CFloat) (t : ℚ) : Bool :=
  match p with
  | CFloat.nan => false
  | CFloat.neg_inf => true
  | CFloat.pos_inf => false
  | CFloat.finite q => decide (q < t)

/-- The comparison `prediction >= t` of a `float` with a `double`. -/
def CFloat.ge (p : CFloat) (t : ℚ) : Bool :=
  match p with
  | CFloat.nan => false
  | CFloat.neg_inf => false
  | CFloat.pos_inf => true
  | CFloat.finite q => decide (t ≤ q)

/-- The finite values of the type `float` (IEEE binary32): an integer of
magnitude below 2 ^ 24 scaled by a power of two, up or down. -/
def CFloat.isBinary32 (q : ℚ) : Prop :=
  ∃ (m : Int) (k : Nat), m.natAbs < 2 ^ 24 ∧ (q = (m : ℚ) * 2 ^ k ∨ q = (m : ℚ) / 2 ^ k)

/-- A `Blob`: the bytes it points to and its `size` member. -/
structure Blob where
  bytes : List UInt8
  size : Nat
  deriving DecidableEq, Repr

/-- An `ObjectWithStringKey`, reduced to the members the callback reads and
sets: the key, the blob, and the message id that exists in a build with
`ENABLE_EVALUATION` (0 where there is none). -/
structure ObjectWithStringKey where
  key : CppString
  blob : Blob
  message_id : Nat
  deriving DecidableEq, Repr

/-- A loaded `cppflow::model`, an external collaborator: all the callback
uses of it is the first output value of one inference on the frame held in a
blob (steps 2 and 3 of the callback). -/
structure Model where
  predict : Blob → CFloat

/-- The tags of the three timestamp log statements of the callback. -/
inductive TimestampTag where
  | TLT_FRONTEND_TRIGGERED
  | TLT_FRONTEND_PREDICTED
  | TLT_FRONTEND_FORWARDED
  deriving DecidableEq, Repr

/-- What one call of the callback does that is visible outside it.

* `log_timestamp`: a `global_timestamp_logger.log` statement (it reads
  `get_my_id()` of the service client, the message id and the wall time);
* `load_model`: the construction of `cppflow::model` in step 1;
* `put`, `put_and_forget`, `trigger_put`: the operations of the service
  client of the context that send an object, `put` being the blocking one;
* `result_get`: the wait `result.get()` on the handle of a `trigger_put`. -/
inductive Event where
  | log_timestamp (tag : TimestampTag) (message_id : Nat)
  | load_model (path : String)
  | put (obj : ObjectWithStringKey)
  | put_and_forget (obj : ObjectWithStringKey)
  | trigger_put (obj : ObjectWithStringKey)
  | result_get (obj : ObjectWithStringKey)
  deriving DecidableEq, Repr

/-- The context operations: `put`, `put_and_forget` and `trigger_put` on
`get_service_client_ref()`. -/
def Event.isContextOp : Event → Bool
  | Event.put _ => true
  | Event.put_and_forget _ => true
  | Event.trigger_put _ => true
  | _ => false

/-- Recognises the model load. -/
def Event.isLoad : Event → Bool
  | Event.load_model _ => true
  | _ => false

/-- The object of a context operation or of a wait on its handle. -/
def Event.obj? : Event → Option ObjectWithStringKey
  | Event.log_timestamp _ _ => none
  | Event.load_model _ => none
  | Event.put o => some o
  | Event.put_and_forget o => some o
  | Event.trigger_put o => some o
  | Event.result_get o => some o

/-- The arguments of one call of the callback (the InvocationRequest of the
specification).  `outputs` is the `std::unordered_map<std::string,bool>` in
the order its iterator visits it; `prefix_length` and `worker_id` are
`uint32_t`. -/
structure Invocation where
  key_string : CppString
  prefix_length : Nat
  version : Int
  value : ObjectWithStringKey
  outputs : List (CppString × Bool)
  worker_id : Nat

/-- A timestamp log statement.  It is compiled in when `ENABLE_EVALUATION`
is defined and `ObjectWithStringKey` has a message id; `evaluation` says
whether that is so. -/
def log_timestamp (evaluation : Bool) (tag : TimestampTag)
    (tcss_value : ObjectWithStringKey) : List Event :=
  if evaluation then [Event.log_timestamp tag tcss_value.message_id] else []

/-- Step 1, lines 52 to 56: `model` is the `static thread_local` pointer.
When it is null the model is constructed from `CONF_FILTER_MODEL` (under
`init_mutex`) and kept; otherwise nothing happens.  `load` is the constructor
`cppflow::model(path)`.  The result is the model the pointer then holds and
the events issued. -/
def load_model_once (load : String → Model) (model : Option Model) : Model × List Event :=
  match model with
  | some m => (m, [])
  | none => (load CONF_FILTER_MODEL, [Event.load_model CONF_FILTER_MODEL])

/-- Lines 86 to 92: `obj_key = iter->first + frame_idx`, then
`ObjectWithStringKey obj(obj_key, tcss_value->blob.bytes, tcss_value->blob.size)`
and, in a build with `ENABLE_EVALUATION`,
`obj.set_message_id(tcss_value->get_message_id())`. -/
def output_object (evaluation : Bool) (frame_idx : CppString)
    (tcss_value : ObjectWithStringKey) (first : CppString) : ObjectWithStringKey :=
  let obj_key := first ++ frame_idx
  let obj : ObjectWithStringKey :=
    { key := obj_key
      blob := { bytes := tcss_value.blob.bytes, size := tcss_value.blob.size }
      message_id := 0 }
  if evaluation then { obj with message_id := tcss_value.message_id } else obj

/-- The loop over `outputs` (lines 85 to 115), one iteration per edge: build
`obj`, take `p2p_send_mutex`, then `trigger_put(obj)` followed by
`result.get()` when `iter->second` is true, and `put_and_forget(obj)`
otherwise.  The calls on the service client are taken to return. -/
def send_outputs (evaluation : Bool) (frame_idx : CppString)
    (tcss_value : ObjectWithStringKey) : List (CppString × Bool) → List Event
  | [] => []
  | (first, second) :: rest =>
    let obj := output_object evaluation frame_idx tcss_value first
    (if second then [Event.trigger_put obj, Event.result_get obj]
     else [Event.put_and_forget obj]) ++ send_outputs evaluation frame_idx tcss_value rest

/-- What one call of the callback leaves behind: how it ended, the
thread-local `model` afterwards, and the events it issued. -/
structure Outcome where
  result : Except CppException Unit
  model : Option Model
  trace : List Event

/-- The callback `DairyFarmFilterOCDPO::operator()`.  `evaluation` tells
whether the timestamp log statements are compiled in, `load` is the
constructor `cppflow::model(path)`, `model` is the `static thread_local`
pointer on entry.

* log `TLT_FRONTEND_TRIGGERED`;
* step 1: when the pointer is null, load the model and keep it;
* steps 2 and 3: run the model on the frame in the blob of the value, giving
  `prediction`; log `TLT_FRONTEND_PREDICTED`;
* step 4: when `prediction < FILTER_THRESHOLD`, take
  `frame_idx = key_string.substr(prefix_length)`, which may throw, and send
  to every output;
* log `TLT_FRONTEND_FORWARDED`.

The debug trace statements are left out. -/
def DairyFarmFilterOCDPO.call (evaluation : Bool) (load : String → Model)
    (model : Option Model) (inv : Invocation) : Outcome :=
  let tcss_value := inv.value
  let triggered := log_timestamp evaluation TimestampTag.TLT_FRONTEND_TRIGGERED tcss_value
  let loaded := load_model_once load model
  let prediction := loaded.1.predict tcss_value.blob
  let predicted := log_timestamp evaluation TimestampTag.TLT_FRONTEND_PREDICTED tcss_value
  if prediction.lt FILTER_THRESHOLD then
    match substr inv.key_string inv.prefix_length with
    | Except.error e =>
      { result := Except.error e, model := some loaded.1,
        trace := triggered ++ loaded.2 ++ predicted }
    | Except.ok frame_idx =>
      { result := Except.ok (), model := some loaded.1,
        trace := triggered ++ loaded.2 ++ predicted
          ++ send_outputs evaluation frame_idx tcss_value inv.outputs
          ++ log_timestamp evaluation TimestampTag.TLT_FRONTEND_FORWARDED tcss_value }
  else
    { result := Except.ok (), model := some loaded.1,
      trace := triggered ++ loaded.2 ++ predicted
        ++ log_timestamp evaluation TimestampTag.TLT_FRONTEND_FORWARDED tcss_value }

/-- The prediction the callback computes in a call entered with thread-local
`model`: that of the cached model, or of the freshly loaded one. -/
def DairyFarmFilterOCDPO.prediction (load : String → Model) (model : Option Model)
    (inv : Invocation) : CFloat :=
  (load_model_once load model).1.predict inv.value.blob

/-- The events of a call before step 4. -/
def DairyFarmFilterOCDPO.prologue (evaluation : Bool) (model : Option Model)
    (inv : Invocation) : List Event :=
  log_timestamp evaluation TimestampTag.TLT_FRONTEND_TRIGGERED inv.value
    ++ (if model.isSome then [] else [Event.load_model CONF_FILTER_MODEL])
    ++ log_timestamp evaluation TimestampTag.TLT_FRONTEND_PREDICTED inv.value

/-- Consecutive calls of the callback on one thread.  The `thread_local`
pointer is carried from each call to the next, also out of a call that threw;
the outcomes are listed in call order. -/
def DairyFarmFilterOCDPO.calls (evaluation : Bool) (load : String → Model) :
    Option Model → List Invocation → List Outcome
  | _, [] => []
  | model, inv :: rest =>
    let out := DairyFarmFilterOCDPO.call evaluation load model inv
    out :: DairyFarmFilterOCDPO.calls evaluation load out.model rest

/-- The key of the scenario of section 8: the text frame/ followed by the
decimal digits of `i`. -/
def frame_key (i : Nat) : CppString := "frame/".toList ++ Nat.toDigits 10 i

/-! ## Sample inputs -/

/-- A configuration that names an execution environment: the default
bundle with `exe_env` set to the enumerator tagged 1. -/
def sample_arg : mproc_udl_server_arg_t :=
  { mproc_udl_server_arg_t.default_arg 4 with exe_env := VertexExecutionEnvironment.known 1 }

/-- A model that predicts the same value for every frame. -/
def constant_model (p : CFloat) : Model := { predict := fun _ => p }

/-- A frame object: key `key`, a blob of three bytes, message id 41. -/
def sample_frame (key : CppString) : ObjectWithStringKey :=
  { key := key, blob := { bytes := [7, 0, 255], size := 3 }, message_id := 41 }

/-- The invocation of the scenario of section 8 for frame `i`: key
frame/i, prefix length `prefix_length`, one output edge `(first, second)`. -/
def frame_invocation (i prefix_length : Nat) (first : CppString) (second : Bool) : Invocation :=
  { key_string := frame_key i
    prefix_length := prefix_length
    version := 0
    value := sample_frame (frame_key i)
    outputs := [(first, second)]
    worker_id := 0 }

/-- A loader whose model predicts one half for every frame, below the
threshold. -/
def sample_load : String → Model := fun _ => constant_model (CFloat.finite (1 / 2))

/-- A loader whose model predicts nineteen twentieths for every frame, above
the threshold. -/
def sample_load_high : String → Model := fun _ => constant_model (CFloat.finite (19 / 20))

/-- An invocation for frame 7 with prefix length 6 and two output edges, one
with the trigger flag set and one without. -/
def sample_invocation : Invocation :=
  { key_string := frame_key 7
    prefix_length := 6
    version := 0
    value := sample_frame (frame_key 7)
    outputs := [("a/".toList, true), ("b/".toList, false)]
    worker_id := 0 }

/-- The same invocation with prefix length 9, longer than its key of 7
characters. -/
def sample_invocation_prefix9 : Invocation :=
  { sample_invocation with prefix_length := 9 }

/-! ## Theorems: `run_server` -/

/-- A constructor that throws ends `run_server` there. -/
theorem run_server_of_ctor_error {σ ε : Type}
    (ctor : mproc_udl_server_arg_t → Except ε σ) (start : σ → Bool → Except ε Unit)
    (arg : mproc_udl_server_arg_t) (wait : Bool) (e : ε) (hctor : ctor arg = Except.error e) :
    run_server ctor start arg wait = (Except.error e, [ServerEvent.construct arg]) := by
  unfold run_server
  rw [hctor]

/-- C2: for every configuration `arg` whose construction fails with error
`e`, and for both values of `wait`, `run_server` fails with `e` after the
constructor call alone: no `start` call is ever issued, so the server never
reaches RUNNING.  With the constructor of section 7(d) a missing required
field and the execution environment `UNKNOWN_EE` are such failures. -/
theorem run_server_construction_failure_never_starts {σ ε : Type}
    (ctor : mproc_udl_server_arg_t → Except ε σ) (start : σ → Bool → Except ε Unit)
    (arg : mproc_udl_server_arg_t) (e : ε) (hctor : ctor arg = Except.error e) :
    (∀ wait : Bool,
      run_server ctor start arg wait = (Except.error e, [ServerEvent.construct arg])
      ∧ (run_server ctor start arg wait).2.countP ServerEvent.isStart = 0
      ∧ ∀ ev ∈ (run_server ctor start arg wait).2, ev.isStart = false)
    ∧ (∀ (required : mproc_udl_server_arg_t → Bool)
        (start1 : MProcUDLServer → Bool → Except ConfigError Unit)
        (arg1 : mproc_udl_server_arg_t),
        required arg1 = false ∨ arg1.exe_env = VertexExecutionEnvironment.UNKNOWN_EE →
        ∀ wait : Bool, ∃ e1 : ConfigError,
          MProcUDLServer.construct required arg1 = Except.error e1
          ∧ run_server (MProcUDLServer.construct required) start1 arg1 wait
            = (Except.error e1, [ServerEvent.construct arg1])) := by
  constructor
  · intro wait
    have h := run_server_of_ctor_error ctor start arg wait e hctor
    refine ⟨h, ?_, ?_⟩
    · rw [h]; rfl
    · rw [h]
      intro ev hev
      simp only [List.mem_singleton] at hev
      rw [hev]; rfl
  · intro required start1 arg1 hbad wait
    have hfail : ∃ e1 : ConfigError,
        MProcUDLServer.construct required arg1 = Except.error e1 := by
      unfold MProcUDLServer.construct
      cases hreq : required arg1 with
      | false => exact ⟨ConfigError.missing_required_field, by simp⟩
      | true =>
        rcases hbad with hbad | hbad
        · rw [hreq] at hbad; cases hbad
        · exact ⟨ConfigError.invalid_execution_environment, by simp [hbad]⟩
    obtain ⟨e1, he1⟩ := hfail
    exact ⟨e1, he1, run_server_of_ctor_error _ start1 arg1 wait e1 he1⟩

/-- Witness for C2: the default configuration has execution environment
`UNKNOWN_EE`, construction fails on it, and `run_server` stops there. -/
theorem run_server_construction_failure_never_starts_witness :
    (mproc_udl_server_arg_t.default_arg 4).exe_env = VertexExecutionEnvironment.UNKNOWN_EE
    ∧ MProcUDLServer.construct (fun _ => true) (mproc_udl_server_arg_t.default_arg 4)
      = Except.error ConfigError.invalid_execution_environment
    ∧ ∀ wait : Bool,
      run_server (MProcUDLServer.construct (fun _ => true)) MProcUDLServer.start
          (mproc_udl_server_arg_t.default_arg 4) wait
        = (Except.error ConfigError.invalid_execution_environment,
            [ServerEvent.construct (mproc_udl_server_arg_t.default_arg 4)])
      ∧ (run_server (MProcUDLServer.construct (fun _ => true)) MProcUDLServer.start
          (mproc_udl_server_arg_t.default_arg 4) wait).2.countP ServerEvent.isStart = 0
      ∧ ∀ ev ∈ (run_server (MProcUDLServer.construct (fun _ => true)) MProcUDLServer.start
          (mproc_udl_server_arg_t.default_arg 4) wait).2, ev.isStart = false :=
  ⟨rfl, rfl, (run_server_construction_failure_never_starts
    (MProcUDLServer.construct (fun _ => true)) MProcUDLServer.start
    (mproc_udl_server_arg_t.default_arg 4) ConfigError.invalid_execution_environment rfl).1⟩

/-- C3: `run_server` is declared `void`.  Called with `wait = false` on a
configuration whose construction succeeds, it hands back the unit value only,
neither a process id nor 0, and the instance it started has been destroyed
by the time it returns, so the caller holds nothing to observe or join. -/
theorem run_server_wait_false_returns_unit :
    run_server (MProcUDLServer.construct (fun _ => true)) MProcUDLServer.start sample_arg false
      = (Except.ok (),
          [ServerEvent.construct sample_arg,
           ServerEvent.start { arg := sample_arg } false,
           ServerEvent.destroy { arg := sample_arg }]) := by
  rfl

/-! ## Lemmas: the loop over the outputs -/

theorem output_object_key (evaluation : Bool) (frame_idx : CppString)
    (v : ObjectWithStringKey) (first : CppString) :
    (output_object evaluation frame_idx v first).key = first ++ frame_idx := by
  cases evaluation <;> rfl

theorem output_object_blob (evaluation : Bool) (frame_idx : CppString)
    (v : ObjectWithStringKey) (first : CppString) :
    (output_object evaluation frame_idx v first).blob = v.blob := by
  cases evaluation <;> rfl

theorem send_outputs_contextOps (evaluation : Bool) (frame_idx : CppString)
    (v : ObjectWithStringKey) (outputs : List (CppString × Bool)) :
    (send_outputs evaluation frame_idx v outputs).filter Event.isContextOp
      = outputs.map (fun e =>
          if e.2 then Event.trigger_put (output_object evaluation frame_idx v e.1)
          else Event.put_and_forget (output_object evaluation frame_idx v e.1)) := by
  induction outputs with
  | nil => rfl
  | cons e rest ih =>
    obtain ⟨first, second⟩ := e
    cases second <;>
      simp [send_outputs, List.filter_cons, Event.isContextOp, ih]

theorem send_outputs_flatten (evaluation : Bool) (frame_idx : CppString)
    (v : ObjectWithStringKey) (outputs : List (CppString × Bool)) :
    send_outputs evaluation frame_idx v outputs
      = (outputs.map (fun e =>
          if e.2 then
            [Event.trigger_put (output_object evaluation frame_idx v e.1),
             Event.result_get (output_object evaluation frame_idx v e.1)]
          else [Event.put_and_forget (output_object evaluation frame_idx v e.1)])).flatten := by
  induction outputs with
  | nil => rfl
  | cons e rest ih =>
    obtain ⟨first, second⟩ := e
    cases second <;> simp [send_outputs, ih]

theorem send_outputs_mem (evaluation : Bool) (frame_idx : CppString)
    (v : ObjectWithStringKey) (outputs : List (CppString × Bool)) (ev : Event) :
    ev ∈ send_outputs evaluation frame_idx v outputs ↔
      ∃ e ∈ outputs,
        (e.2 = true ∧ (ev = Event.trigger_put (output_object evaluation frame_idx v e.1)
          ∨ ev = Event.result_get (output_object evaluation frame_idx v e.1)))
        ∨ (e.2 = false
          ∧ ev = Event.put_and_forget (output_object evaluation frame_idx v e.1)) := by
  induction outputs with
  | nil => simp [send_outputs]
  | cons e rest ih =>
    obtain ⟨first, second⟩ := e
    cases second <;> simp [send_outputs, ih, or_assoc]

theorem send_outputs_obj (evaluation : Bool) (frame_idx : CppString)
    (v : ObjectWithStringKey) (outputs : List (CppString × Bool)) :
    (send_outputs evaluation frame_idx v outputs).filter (fun ev => ev.obj?.isSome)
      = send_outputs evaluation frame_idx v outputs := by
  rw [List.filter_eq_self]
  intro ev hev
  rw [send_outputs_mem] at hev
  obtain ⟨e, _, h | h⟩ := hev
  · rcases h.2 with h | h <;> rw [h] <;> rfl
  · rw [h.2]; rfl

theorem send_outputs_no_load (evaluation : Bool) (frame_idx : CppString)
    (v : ObjectWithStringKey) (outputs : List (CppString × Bool)) :
    (send_outputs evaluation frame_idx v outputs).countP Event.isLoad = 0 := by
  rw [List.countP_eq_zero]
  intro ev hev
  rw [send_outputs_mem] at hev
  obtain ⟨e, _, h | h⟩ := hev
  · rcases h.2 with h | h <;> simp [h, Event.isLoad]
  · simp [h.2, Event.isLoad]

/-! ## Lemmas: the timestamp log statements and step 1 -/

theorem log_timestamp_obj (evaluation : Bool) (tag : TimestampTag) (v : ObjectWithStringKey) :
    ∀ ev ∈ log_timestamp evaluation tag v, ev.obj? = none ∧ ev.isLoad = false := by
  intro ev hev
  cases evaluation with
  | false => simp [log_timestamp] at hev
  | true =>
    simp only [log_timestamp, if_true, List.mem_singleton] at hev
    rw [hev]; exact ⟨rfl, rfl⟩

theorem load_model_once_trace (load : String → Model) (model : Option Model) :
    (load_model_once load model).2
      = if model.isSome then [] else [Event.load_model CONF_FILTER_MODEL] := by
  cases model <;> rfl

theorem prologue_obj (evaluation : Bool) (model : Option Model) (inv : Invocation) :
    ∀ ev ∈ DairyFarmFilterOCDPO.prologue evaluation model inv, ev.obj? = none := by
  intro ev hev
  simp only [DairyFarmFilterOCDPO.prologue, List.mem_append] at hev
  rcases hev with (hev | hev) | hev
  · exact (log_timestamp_obj _ _ _ ev hev).1
  · cases model with
    | none =>
      simp only [Option.isSome_none, Bool.false_eq_true, if_false,
        List.mem_singleton] at hev
      rw [hev]; rfl
    | some m => simp at hev
  · exact (log_timestamp_obj _ _ _ ev hev).1

theorem prologue_loads (evaluation : Bool) (model : Option Model) (inv : Invocation) :
    (DairyFarmFilterOCDPO.prologue evaluation model inv).countP Event.isLoad
      = if model.isSome then 0 else 1 := by
  have hlog : ∀ tag, (log_timestamp evaluation tag inv.value).countP Event.isLoad = 0 := by
    intro tag
    rw [List.countP_eq_zero]
    intro ev hev
    simp [(log_timestamp_obj _ _ _ ev hev).2]
  simp only [DairyFarmFilterOCDPO.prologue, List.countP_append, hlog]
  cases model <;> rfl

theorem filter_obj_eq_nil (l : List Event) (h : ∀ ev ∈ l, ev.obj? = none) :
    l.filter (fun ev => ev.obj?.isSome) = [] ∧ l.filter Event.isContextOp = [] := by
  constructor
  · rw [List.filter_eq_nil_iff]
    intro ev hev
    simp [h ev hev]
  · rw [List.filter_eq_nil_iff]
    intro ev hev
    have := h ev hev
    cases ev <;> simp_all [Event.obj?, Event.isContextOp]

/-- The two comparisons exclude each other. -/
theorem CFloat.lt_false_of_ge (p : CFloat) (t : ℚ) (h : p.ge t = true) : p.lt t = false := by
  cases p with
  | nan => rfl
  | neg_inf => simp [CFloat.ge] at h
  | pos_inf => rfl
  | finite q =>
    simp only [CFloat.ge, decide_eq_true_eq] at h
    simp only [CFloat.lt, decide_eq_false_iff_not, not_lt]
    exact h

/-! ## Lemmas: one call of the callback -/

theorem call_model (evaluation : Bool) (load : String → Model) (model : Option Model)
    (inv : Invocation) :
    (DairyFarmFilterOCDPO.call evaluation load model inv).model
      = some (model.getD (load CONF_FILTER_MODEL)) := by
  unfold DairyFarmFilterOCDPO.call
  cases model <;> dsimp only <;> split <;> (try split) <;> rfl

theorem call_forward (evaluation : Bool) (load : String → Model) (model : Option Model)
    (inv : Invocation)
    (hp : (DairyFarmFilterOCDPO.prediction load model inv).lt FILTER_THRESHOLD = true)
    (hn : inv.prefix_length ≤ inv.key_string.length) :
    (DairyFarmFilterOCDPO.call evaluation load model inv).result = Except.ok ()
    ∧ (DairyFarmFilterOCDPO.call evaluation load model inv).trace
      = DairyFarmFilterOCDPO.prologue evaluation model inv
        ++ send_outputs evaluation (inv.key_string.drop inv.prefix_length) inv.value
            inv.outputs
        ++ log_timestamp evaluation TimestampTag.TLT_FRONTEND_FORWARDED inv.value := by
  have hs : substr inv.key_string inv.prefix_length
      = Except.ok (inv.key_string.drop inv.prefix_length) := by
    unfold substr
    rw [if_neg (by omega)]
  unfold DairyFarmFilterOCDPO.prediction at hp
  unfold DairyFarmFilterOCDPO.call DairyFarmFilterOCDPO.prologue
  simp only [hp, hs, if_true, load_model_once_trace]
  exact ⟨trivial, trivial⟩

theorem call_out_of_range (evaluation : Bool) (load : String → Model) (model : Option Model)
    (inv : Invocation)
    (hp : (DairyFarmFilterOCDPO.prediction load model inv).lt FILTER_THRESHOLD = true)
    (hn : inv.key_string.length < inv.prefix_length) :
    (DairyFarmFilterOCDPO.call evaluation load model inv).result
      = Except.error CppException.out_of_range
    ∧ (DairyFarmFilterOCDPO.call evaluation load model inv).trace
      = DairyFarmFilterOCDPO.prologue evaluation model inv := by
  have hs : substr inv.key_string inv.prefix_length
      = Except.error CppException.out_of_range := by
    unfold substr
    rw [if_pos (by omega)]
  unfold DairyFarmFilterOCDPO.prediction at hp
  unfold DairyFarmFilterOCDPO.call DairyFarmFilterOCDPO.prologue
  simp only [hp, hs, if_true, load_model_once_trace]
  exact ⟨trivial, trivial⟩

theorem call_filtered (evaluation : Bool) (load : String → Model) (model : Option Model)
    (inv : Invocation)
    (hp : (DairyFarmFilterOCDPO.prediction load model inv).lt FILTER_THRESHOLD = false) :
    (DairyFarmFilterOCDPO.call evaluation load model inv).result = Except.ok ()
    ∧ (DairyFarmFilterOCDPO.call evaluation load model inv).trace
      = DairyFarmFilterOCDPO.prologue evaluation model inv
        ++ log_timestamp evaluation TimestampTag.TLT_FRONTEND_FORWARDED inv.value := by
  unfold DairyFarmFilterOCDPO.prediction at hp
  unfold DairyFarmFilterOCDPO.call DairyFarmFilterOCDPO.prologue
  simp only [hp, load_model_once_trace, Bool.false_eq_true, if_false]
  exact ⟨trivial, trivial⟩

theorem call_loads (evaluation : Bool) (load : String → Model) (model : Option Model)
    (inv : Invocation) :
    (DairyFarmFilterOCDPO.call evaluation load model inv).trace.countP Event.isLoad
      = if model.isSome then 0 else 1 := by
  have hlog : (log_timestamp evaluation TimestampTag.TLT_FRONTEND_FORWARDED
      inv.value).countP Event.isLoad = 0 := by
    rw [List.countP_eq_zero]
    intro ev hev
    simp [(log_timestamp_obj _ _ _ ev hev).2]
  cases hp : (DairyFarmFilterOCDPO.prediction load model inv).lt FILTER_THRESHOLD with
  | false =>
    rw [(call_filtered evaluation load model inv hp).2, List.countP_append, prologue_loads,
      hlog, Nat.add_zero]
  | true =>
    by_cases hn : inv.prefix_length ≤ inv.key_string.length
    · rw [(call_forward evaluation load model inv hp hn).2, List.countP_append,
        List.countP_append, send_outputs_no_load, prologue_loads, hlog, Nat.add_zero]
    · rw [(call_out_of_range evaluation load model inv hp (by omega)).2, prologue_loads]

theorem call_forward_obj (evaluation : Bool) (load : String → Model) (model : Option Model)
    (inv : Invocation)
    (hp : (DairyFarmFilterOCDPO.prediction load model inv).lt FILTER_THRESHOLD = true)
    (hn : inv.prefix_length ≤ inv.key_string.length) :
    (DairyFarmFilterOCDPO.call evaluation load model inv).trace.filter
        (fun ev => ev.obj?.isSome)
      = send_outputs evaluation (inv.key_string.drop inv.prefix_length) inv.value
          inv.outputs := by
  rw [(call_forward evaluation load model inv hp hn).2, List.filter_append,
    List.filter_append, (filter_obj_eq_nil _ (prologue_obj evaluation model inv)).1,
    (filter_obj_eq_nil _ (fun ev hev => (log_timestamp_obj _ _ _ ev hev).1)).1,
    send_outputs_obj, List.nil_append, List.append_nil]

theorem call_forward_contextOps (evaluation : Bool) (load : String → Model)
    (model : Option Model) (inv : Invocation)
    (hp : (DairyFarmFilterOCDPO.prediction load model inv).lt FILTER_THRESHOLD = true)
    (hn : inv.prefix_length ≤ inv.key_string.length) :
    (DairyFarmFilterOCDPO.call evaluation load model inv).trace.filter Event.isContextOp
      = inv.outputs.map (fun e =>
          if e.2 then
            Event.trigger_put
              (output_object evaluation (inv.key_string.drop inv.prefix_length) inv.value e.1)
          else
            Event.put_and_forget
              (output_object evaluation (inv.key_string.drop inv.prefix_length) inv.value
                e.1)) := by
  rw [(call_forward evaluation load model inv hp hn).2, List.filter_append,
    List.filter_append, (filter_obj_eq_nil _ (prologue_obj evaluation model inv)).2,
    (filter_obj_eq_nil _ (fun ev hev => (log_timestamp_obj _ _ _ ev hev).1)).2,
    send_outputs_contextOps, List.nil_append, List.append_nil]

theorem call_forward_mem (evaluation : Bool) (load : String → Model) (model : Option Model)
    (inv : Invocation)
    (hp : (DairyFarmFilterOCDPO.prediction load model inv).lt FILTER_THRESHOLD = true)
    (hn : inv.prefix_length ≤ inv.key_string.length) (ev : Event) (o : ObjectWithStringKey)
    (hev : ev ∈ (DairyFarmFilterOCDPO.call evaluation load model inv).trace)
    (ho : ev.obj? = some o) :
    ev ∈ send_outputs evaluation (inv.key_string.drop inv.prefix_length) inv.value
      inv.outputs := by
  rw [← call_forward_obj evaluation load model inv hp hn, List.mem_filter]
  exact ⟨hev, by simp [ho]⟩

theorem call_no_obj (l : List Event) (h : ∀ ev ∈ l, ev.obj? = none)
    (evaluation : Bool) (tag : TimestampTag) (v : ObjectWithStringKey) :
    ∀ ev ∈ l ++ log_timestamp evaluation tag v, ev.obj? = none := by
  intro ev hev
  rcases List.mem_append.mp hev with hev | hev
  · exact h ev hev
  · exact (log_timestamp_obj _ _ _ ev hev).1

/-! ## Lemmas: consecutive calls on one thread -/

theorem calls_length (evaluation : Bool) (load : String → Model) (model : Option Model)
    (invs : List Invocation) :
    (DairyFarmFilterOCDPO.calls evaluation load model invs).length = invs.length := by
  induction invs generalizing model with
  | nil => rfl
  | cons inv rest ih => simp [DairyFarmFilterOCDPO.calls, ih]

theorem calls_cached (evaluation : Bool) (load : String → Model) (m : Model)
    (invs : List Invocation) :
    ∀ o ∈ DairyFarmFilterOCDPO.calls evaluation load (some m) invs,
      o.model = some m ∧ o.trace.countP Event.isLoad = 0 := by
  induction invs with
  | nil => intro o ho; simp [DairyFarmFilterOCDPO.calls] at ho
  | cons inv rest ih =>
    intro o ho
    simp only [DairyFarmFilterOCDPO.calls, List.mem_cons] at ho
    have hm : (DairyFarmFilterOCDPO.call evaluation load (some m) inv).model = some m := by
      rw [call_model]; rfl
    rcases ho with ho | ho
    · subst ho
      exact ⟨hm, by rw [call_loads]; rfl⟩
    · rw [hm] at ho
      exact ih o ho

theorem calls_contextOps (evaluation : Bool) (load : String → Model) (model : Option Model)
    (hmodel : model.getD (load CONF_FILTER_MODEL) = load CONF_FILTER_MODEL)
    (invs : List Invocation)
    (hp : ∀ inv ∈ invs,
      ((load CONF_FILTER_MODEL).predict inv.value.blob).lt FILTER_THRESHOLD = true)
    (hn : ∀ inv ∈ invs, inv.prefix_length ≤ inv.key_string.length) :
    (DairyFarmFilterOCDPO.calls evaluation load model invs).map
        (fun o => o.trace.filter Event.isContextOp)
      = invs.map (fun inv => inv.outputs.map (fun e =>
          if e.2 then
            Event.trigger_put
              (output_object evaluation (inv.key_string.drop inv.prefix_length) inv.value e.1)
          else
            Event.put_and_forget
              (output_object evaluation (inv.key_string.drop inv.prefix_length) inv.value
                e.1))) := by
  induction invs generalizing model with
  | nil => rfl
  | cons inv rest ih =>
    have hpred : (DairyFarmFilterOCDPO.prediction load model inv).lt FILTER_THRESHOLD
        = true := by
      have h := hp inv (List.mem_cons_self _ _)
      cases model with
      | none => exact h
      | some m =>
        simp only [Option.getD_some] at hmodel
        simp only [DairyFarmFilterOCDPO.prediction, load_model_once, hmodel]
        exact h
    have hnext : (DairyFarmFilterOCDPO.call evaluation load model inv).model.getD
        (load CONF_FILTER_MODEL) = load CONF_FILTER_MODEL := by
      rw [call_model, Option.getD_some, hmodel]
    simp only [DairyFarmFilterOCDPO.calls, List.map_cons]
    rw [call_forward_contextOps evaluation load model inv hpred
        (hn inv (List.mem_cons_self _ _)),
      ih _ hnext (fun i hi => hp i (List.mem_cons_of_mem _ hi))
        (fun i hi => hn i (List.mem_cons_of_mem _ hi))]

theorem flatten_map_singleton {α β : Type} (g : α → β) (l : List α) :
    (l.map (fun i => [g i])).flatten = l.map g := by
  induction l with
  | nil => rfl
  | cons a rest ih => simp [ih]

/-! ## Lemmas: the threshold on values of type `float` -/

/-- No binary32 value lies between nine tenths and the double nearest to it:
for a `float`, being below `FILTER_THRESHOLD` is being below nine tenths. -/
theorem CFloat.binary32_lt_threshold_iff (q : ℚ) (hq : CFloat.isBinary32 q) :
    q < FILTER_THRESHOLD ↔ q < 9 / 10 := by
  constructor
  · intro h
    by_contra hge
    rw [not_lt] at hge
    unfold FILTER_THRESHOLD at h
    obtain ⟨m, k, hm, hq | hq⟩ := hq
    · subst hq
      have h1 : ((m * 2 ^ k : ℤ) : ℚ) < ((1 : ℤ) : ℚ) := by
        push_cast
        linarith
      have h2 : ((0 : ℤ) : ℚ) < ((m * 2 ^ k : ℤ) : ℚ) := by
        push_cast
        linarith
      have h1 := Int.cast_lt.mp h1
      have h2 := Int.cast_lt.mp h2
      omega
    · subst hq
      have hpos : (0 : ℚ) < 2 ^ k := by positivity
      rw [le_div_iff₀ hpos] at hge
      rw [div_lt_iff₀ hpos] at h
      have hmlt : m < 2 ^ 24 := by
        have := Int.le_natAbs (a := m)
        have h3 : ((m.natAbs : ℤ)) < 2 ^ 24 := by exact_mod_cast hm
        omega
      by_cases hk : k ≤ 53
      · obtain ⟨j, hj⟩ : ∃ j, 53 = k + j := ⟨53 - k, by omega⟩
        have hpj : (0 : ℚ) < 2 ^ j := by positivity
        have hsplit : (2 : ℚ) ^ k * 2 ^ j = 9007199254740992 := by
          rw [← pow_add, ← hj]; norm_num
        have e1 : ((9 * 9007199254740992 : ℤ) : ℚ) ≤ ((10 * (m * 2 ^ j) : ℤ) : ℚ) := by
          push_cast
          have := mul_le_mul_of_nonneg_right hge hpj.le
          nlinarith [hsplit]
        have e2 : ((m * 2 ^ j : ℤ) : ℚ) < ((8106479329266893 : ℤ) : ℚ) := by
          push_cast
          have := mul_lt_mul_of_pos_right h hpj
          have h4 : (8106479329266893 / 9007199254740992 : ℚ) * 2 ^ k * 2 ^ j
              = 8106479329266893 := by
            rw [mul_assoc, hsplit]; norm_num
          linarith
        have e1 := Int.cast_le.mp e1
        have e2 := Int.cast_lt.mp e2
        omega
      · have hk2 : (2 : ℚ) ^ 54 ≤ 2 ^ k :=
          pow_le_pow_right₀ (by norm_num) (by omega)
        have hm2 : (m : ℚ) < 2 ^ 24 := by exact_mod_cast hmlt
        norm_num at hk2 hm2
        linarith
  · intro h
    exact lt_trans h (by norm_num [FILTER_THRESHOLD])

/-! ## Theorems: the filter callback -/

/-- C5: in every call that forwards its frame (prediction below the
threshold, prefix length within the key), in either build, the context
operations are, in table order, exactly one per edge of the output table: a
`trigger_put` when the flag of the edge is true and a `put_and_forget` when
it is false; the events that carry an object are, edge by edge, either
`trigger_put` followed by the wait on its handle, or `put_and_forget`; and
the blocking `put` never occurs. -/
theorem forwarding_call_one_operation_per_edge (evaluation : Bool) (load : String → Model)
    (model : Option Model) (inv : Invocation)
    (hp : (DairyFarmFilterOCDPO.prediction load model inv).lt FILTER_THRESHOLD = true)
    (hn : inv.prefix_length ≤ inv.key_string.length) :
    (DairyFarmFilterOCDPO.call evaluation load model inv).trace.filter Event.isContextOp
      = inv.outputs.map (fun e =>
          if e.2 then
            Event.trigger_put
              (output_object evaluation (inv.key_string.drop inv.prefix_length) inv.value e.1)
          else
            Event.put_and_forget
              (output_object evaluation (inv.key_string.drop inv.prefix_length) inv.value
                e.1))
    ∧ (DairyFarmFilterOCDPO.call evaluation load model inv).trace.filter
        (fun ev => ev.obj?.isSome)
      = (inv.outputs.map (fun e =>
          if e.2 then
            [Event.trigger_put
              (output_object evaluation (inv.key_string.drop inv.prefix_length) inv.value e.1),
             Event.result_get
              (output_object evaluation (inv.key_string.drop inv.prefix_length) inv.value e.1)]
          else
            [Event.put_and_forget
              (output_object evaluation (inv.key_string.drop inv.prefix_length) inv.value
                e.1)])).flatten
    ∧ ∀ o, Event.put o ∉ (DairyFarmFilterOCDPO.call evaluation load model inv).trace := by
  refine ⟨call_forward_contextOps evaluation load model inv hp hn, ?_, ?_⟩
  · rw [call_forward_obj evaluation load model inv hp hn, send_outputs_flatten]
  · intro o ho
    have h := call_forward_mem evaluation load model inv hp hn (Event.put o) o ho rfl
    rw [send_outputs_mem] at h
    obtain ⟨e, _, h | h⟩ := h
    · rcases h.2 with h | h <;> cases h
    · cases h.2

/-- Witness for C5: frame 7, prefix length 6, edges a/ (trigger) and b/ (no
trigger), prediction one half, empty cache, build without evaluation. -/
theorem forwarding_call_one_operation_per_edge_witness :
    ((DairyFarmFilterOCDPO.prediction sample_load none sample_invocation).lt
        FILTER_THRESHOLD = true
      ∧ sample_invocation.prefix_length ≤ sample_invocation.key_string.length)
    ∧ (DairyFarmFilterOCDPO.call false sample_load none sample_invocation).trace.filter
        Event.isContextOp
      = [Event.trigger_put
           { key := "a/7".toList, blob := { bytes := [7, 0, 255], size := 3 },
             message_id := 0 },
         Event.put_and_forget
           { key := "b/7".toList, blob := { bytes := [7, 0, 255], size := 3 },
             message_id := 0 }] :=
  ⟨⟨by decide!, by decide⟩,
    (forwarding_call_one_operation_per_edge false sample_load none sample_invocation
      (by decide!) (by decide)).1⟩

/-- C6: in either build, a call whose prediction is at or above
`FILTER_THRESHOLD` ends normally and issues no context operation (no event
that carries an object at all); a call whose prediction is below it, with
the prefix length within the key, issues as many context operations as the
output table has edges.  For a finite prediction of type `float` the same
holds with nine tenths itself in place of `FILTER_THRESHOLD`. -/
theorem filter_threshold_gates_forwarding (evaluation : Bool) (load : String → Model)
    (model : Option Model) (inv : Invocation) :
    ((DairyFarmFilterOCDPO.prediction load model inv).ge FILTER_THRESHOLD = true →
      (DairyFarmFilterOCDPO.call evaluation load model inv).result = Except.ok ()
      ∧ (DairyFarmFilterOCDPO.call evaluation load model inv).trace.filter
          Event.isContextOp = []
      ∧ ∀ ev ∈ (DairyFarmFilterOCDPO.call evaluation load model inv).trace, ev.obj? = none)
    ∧ ((DairyFarmFilterOCDPO.prediction load model inv).lt FILTER_THRESHOLD = true →
      inv.prefix_length ≤ inv.key_string.length →
      ((DairyFarmFilterOCDPO.call evaluation load model inv).trace.filter
          Event.isContextOp).length = inv.outputs.length)
    ∧ (∀ q : ℚ, CFloat.isBinary32 q →
      DairyFarmFilterOCDPO.prediction load model inv = CFloat.finite q →
      (9 / 10 ≤ q →
        (DairyFarmFilterOCDPO.call evaluation load model inv).trace.filter
          Event.isContextOp = [])
      ∧ (q < 9 / 10 → inv.prefix_length ≤ inv.key_string.length →
        ((DairyFarmFilterOCDPO.call evaluation load model inv).trace.filter
          Event.isContextOp).length = inv.outputs.length)) := by
  have hhigh : (DairyFarmFilterOCDPO.prediction load model inv).lt FILTER_THRESHOLD = false →
      (DairyFarmFilterOCDPO.call evaluation load model inv).result = Except.ok ()
      ∧ (DairyFarmFilterOCDPO.call evaluation load model inv).trace.filter
          Event.isContextOp = []
      ∧ ∀ ev ∈ (DairyFarmFilterOCDPO.call evaluation load model inv).trace,
          ev.obj? = none := by
    intro hlt
    have h := call_filtered evaluation load model inv hlt
    have hobj : ∀ ev ∈ (DairyFarmFilterOCDPO.call evaluation load model inv).trace,
        ev.obj? = none := by
      rw [h.2]
      exact call_no_obj _ (prologue_obj evaluation model inv) _ _ _
    exact ⟨h.1, (filter_obj_eq_nil _ hobj).2, hobj⟩
  have hlow : (DairyFarmFilterOCDPO.prediction load model inv).lt FILTER_THRESHOLD = true →
      inv.prefix_length ≤ inv.key_string.length →
      ((DairyFarmFilterOCDPO.call evaluation load model inv).trace.filter
          Event.isContextOp).length = inv.outputs.length := by
    intro hp hn
    rw [call_forward_contextOps evaluation load model inv hp hn, List.length_map]
  refine ⟨fun hge => hhigh (CFloat.lt_false_of_ge _ _ hge), hlow, ?_⟩
  intro q hq hpred
  constructor
  · intro h9
    refine (hhigh ?_).2.1
    rw [hpred]
    simp only [CFloat.lt, decide_eq_false_iff_not]
    rw [CFloat.binary32_lt_threshold_iff q hq]
    exact not_lt.mpr h9
  · intro h9 hn
    refine hlow ?_ hn
    rw [hpred]
    simp only [CFloat.lt, decide_eq_true_eq]
    exact (CFloat.binary32_lt_threshold_iff q hq).mpr h9

/-- Witness for C6: prediction nineteen twentieths gives no context
operation, prediction one half gives two for the two edges. -/
theorem filter_threshold_gates_forwarding_witness :
    ((DairyFarmFilterOCDPO.prediction sample_load_high none sample_invocation).ge
        FILTER_THRESHOLD = true
      ∧ (DairyFarmFilterOCDPO.call true sample_load_high none sample_invocation).trace.filter
          Event.isContextOp = [])
    ∧ ((DairyFarmFilterOCDPO.prediction sample_load none sample_invocation).lt
        FILTER_THRESHOLD = true
      ∧ sample_invocation.prefix_length ≤ sample_invocation.key_string.length
      ∧ ((DairyFarmFilterOCDPO.call true sample_load none sample_invocation).trace.filter
          Event.isContextOp).length = 2)
    ∧ (CFloat.isBinary32 (1 / 2)
      ∧ DairyFarmFilterOCDPO.prediction sample_load none sample_invocation
          = CFloat.finite (1 / 2)
      ∧ ((1 : ℚ) / 2 < 9 / 10)
      ∧ ((DairyFarmFilterOCDPO.call true sample_load none sample_invocation).trace.filter
          Event.isContextOp).length = 2) :=
  ⟨⟨by decide!,
      ((filter_threshold_gates_forwarding true sample_load_high none sample_invocation).1
        (by decide!)).2.1⟩,
    ⟨by decide!, by decide,
      (filter_threshold_gates_forwarding true sample_load none sample_invocation).2.1
        (by decide!) (by decide)⟩,
    ⟨⟨1, 1, by decide, Or.inr (by decide!)⟩, rfl, by decide!,
      ((filter_threshold_gates_forwarding true sample_load none sample_invocation).2.2
        (1 / 2) ⟨1, 1, by decide, Or.inr (by decide!)⟩ rfl).2 (by decide!) (by decide)⟩⟩

/-- C7: in either build, a call loads the model exactly when the thread-local
cache is empty on entry; and for every sequence of calls on a thread that
starts with an empty cache, every call returns, the cache holds the loaded
model after every call, the first call loads the model exactly once, and no
later call loads it. -/
theorem model_loaded_once_per_thread (evaluation : Bool) (load : String → Model)
    (invs : List Invocation) :
    (∀ (model : Option Model) (inv : Invocation),
      (DairyFarmFilterOCDPO.call evaluation load model inv).trace.countP Event.isLoad
        = if model.isSome then 0 else 1)
    ∧ (DairyFarmFilterOCDPO.calls evaluation load none invs).length = invs.length
    ∧ (∀ o ∈ DairyFarmFilterOCDPO.calls evaluation load none invs,
        o.model.isSome = true ∧ o.model = some (load CONF_FILTER_MODEL))
    ∧ (∀ o, (DairyFarmFilterOCDPO.calls evaluation load none invs).head? = some o →
        o.trace.countP Event.isLoad = 1)
    ∧ (∀ o ∈ (DairyFarmFilterOCDPO.calls evaluation load none invs).tail,
        o.trace.countP Event.isLoad = 0) := by
  refine ⟨call_loads evaluation load, calls_length evaluation load none invs, ?_, ?_, ?_⟩
  · cases invs with
    | nil => intro o ho; simp [DairyFarmFilterOCDPO.calls] at ho
    | cons inv rest =>
      intro o ho
      simp only [DairyFarmFilterOCDPO.calls, List.mem_cons] at ho
      have hm : (DairyFarmFilterOCDPO.call evaluation load none inv).model
          = some (load CONF_FILTER_MODEL) := by
        rw [call_model]; rfl
      rcases ho with ho | ho
      · subst ho
        rw [hm]; exact ⟨rfl, rfl⟩
      · rw [hm] at ho
        have h := (calls_cached evaluation load (load CONF_FILTER_MODEL) rest o ho).1
        rw [h]; exact ⟨rfl, rfl⟩
  · cases invs with
    | nil => intro o ho; simp [DairyFarmFilterOCDPO.calls] at ho
    | cons inv rest =>
      intro o ho
      simp only [DairyFarmFilterOCDPO.calls, List.head?_cons, Option.some.injEq] at ho
      subst ho
      rw [call_loads]; rfl
  · cases invs with
    | nil => intro o ho; simp [DairyFarmFilterOCDPO.calls] at ho
    | cons inv rest =>
      intro o ho
      simp only [DairyFarmFilterOCDPO.calls, List.tail_cons] at ho
      have hm : (DairyFarmFilterOCDPO.call evaluation load none inv).model
          = some (load CONF_FILTER_MODEL) := by
        rw [call_model]; rfl
      rw [hm] at ho
      exact (calls_cached evaluation load (load CONF_FILTER_MODEL) rest o ho).2

/-- Witness for C7: three calls on a fresh thread, the second of which
throws out of `substr`: the load counts are 1, 0, 0. -/
theorem model_loaded_once_per_thread_witness :
    (DairyFarmFilterOCDPO.calls true sample_load none
        [sample_invocation, sample_invocation_prefix9, sample_invocation]).map
        (fun o => o.trace.countP Event.isLoad) = [1, 0, 0]
    ∧ (DairyFarmFilterOCDPO.calls true sample_load none
        [sample_invocation, sample_invocation_prefix9, sample_invocation]).length = 3 :=
  ⟨by decide!, (model_loaded_once_per_thread true sample_load
    [sample_invocation, sample_invocation_prefix9, sample_invocation]).2.1⟩

/-- C8: in every call that forwards its frame, in either build, with key `k`,
prefix length `n` within the key and incoming object `value`, every object
sent (by a context operation, or waited on) belongs to an edge of the output
table with destination `d`, has key `d ++ drop n k`, and has the bytes and
the size of the blob of `value`; and for every edge `(d, flag)` of the table
the operation chosen by `flag` is issued on such an object. -/
theorem forwarded_object_key_and_payload (evaluation : Bool) (load : String → Model)
    (model : Option Model) (inv : Invocation)
    (hp : (DairyFarmFilterOCDPO.prediction load model inv).lt FILTER_THRESHOLD = true)
    (hn : inv.prefix_length ≤ inv.key_string.length) :
    (∀ ev ∈ (DairyFarmFilterOCDPO.call evaluation load model inv).trace, ∀ o,
      ev.obj? = some o →
      (∃ e ∈ inv.outputs, o.key = e.1 ++ inv.key_string.drop inv.prefix_length)
      ∧ o.blob.bytes = inv.value.blob.bytes
      ∧ o.blob.size = inv.value.blob.size
      ∧ o.blob = inv.value.blob)
    ∧ (∀ e ∈ inv.outputs, ∃ o : ObjectWithStringKey,
        o.key = e.1 ++ inv.key_string.drop inv.prefix_length
        ∧ o.blob = inv.value.blob
        ∧ (if e.2 then Event.trigger_put o else Event.put_and_forget o)
          ∈ (DairyFarmFilterOCDPO.call evaluation load model inv).trace) := by
  constructor
  · intro ev hev o ho
    have h := call_forward_mem evaluation load model inv hp hn ev o hev ho
    rw [send_outputs_mem] at h
    have hobj : ∀ e ∈ inv.outputs,
        o = output_object evaluation (inv.key_string.drop inv.prefix_length) inv.value e.1 →
        (∃ e ∈ inv.outputs, o.key = e.1 ++ inv.key_string.drop inv.prefix_length)
        ∧ o.blob.bytes = inv.value.blob.bytes
        ∧ o.blob.size = inv.value.blob.size
        ∧ o.blob = inv.value.blob := by
      intro e he hoe
      have hb := output_object_blob evaluation (inv.key_string.drop inv.prefix_length)
        inv.value e.1
      rw [← hoe] at hb
      exact ⟨⟨e, he, by rw [hoe, output_object_key]⟩, by rw [hb], by rw [hb], hb⟩
    obtain ⟨e, he, h | h⟩ := h
    · rcases h.2 with h | h <;>
      · rw [h] at ho
        simp only [Event.obj?, Option.some.injEq] at ho
        exact hobj e he ho.symm
    · rw [h.2] at ho
      simp only [Event.obj?, Option.some.injEq] at ho
      exact hobj e he ho.symm
  · intro e he
    refine ⟨output_object evaluation (inv.key_string.drop inv.prefix_length) inv.value e.1,
      output_object_key _ _ _ _, output_object_blob _ _ _ _, ?_⟩
    rw [(call_forward evaluation load model inv hp hn).2, List.mem_append, List.mem_append,
      send_outputs_mem]
    left; right
    refine ⟨e, he, ?_⟩
    cases h2 : e.2 with
    | true => left; exact ⟨rfl, Or.inl rfl⟩
    | false => right; exact ⟨rfl, rfl⟩

/-- Witness for C8: frame 7, prefix length 6, build with evaluation: the
edge with destination b/ sends an object with key b/ followed by 7 and the
blob of the incoming object. -/
theorem forwarded_object_key_and_payload_witness :
    ((DairyFarmFilterOCDPO.prediction sample_load none sample_invocation).lt
        FILTER_THRESHOLD = true
      ∧ sample_invocation.prefix_length ≤ sample_invocation.key_string.length)
    ∧ ∃ o : ObjectWithStringKey,
        o.key = ("b/".toList, false).1
          ++ sample_invocation.key_string.drop sample_invocation.prefix_length
        ∧ o.blob = sample_invocation.value.blob
        ∧ (if ("b/".toList, false).2 then Event.trigger_put o else Event.put_and_forget o)
          ∈ (DairyFarmFilterOCDPO.call true sample_load none sample_invocation).trace :=
  ⟨⟨by decide!, by decide⟩,
    (forwarded_object_key_and_payload true sample_load none sample_invocation
      (by decide!) (by decide)).2 ("b/".toList, false) (by decide)⟩

/-- C9: in either build, a call with a prediction below the threshold and a
prefix length greater than the length of the key fails with
`std::out_of_range` and issues no context operation, no `trigger_put`, no
`put_and_forget` and no wait, whatever the output table holds; with a prefix
length within the key, `substr` returns the suffix and the call ends
normally. -/
theorem long_prefix_fails_before_sending (evaluation : Bool) (load : String → Model)
    (model : Option Model) (inv : Invocation) :
    ((DairyFarmFilterOCDPO.prediction load model inv).lt FILTER_THRESHOLD = true →
      inv.key_string.length < inv.prefix_length →
      substr inv.key_string inv.prefix_length = Except.error CppException.out_of_range
      ∧ (DairyFarmFilterOCDPO.call evaluation load model inv).result
        = Except.error CppException.out_of_range
      ∧ (DairyFarmFilterOCDPO.call evaluation load model inv).trace.filter
          Event.isContextOp = []
      ∧ ∀ ev ∈ (DairyFarmFilterOCDPO.call evaluation load model inv).trace, ev.obj? = none)
    ∧ (inv.prefix_length ≤ inv.key_string.length →
      substr inv.key_string inv.prefix_length
        = Except.ok (inv.key_string.drop inv.prefix_length)
      ∧ (DairyFarmFilterOCDPO.call evaluation load model inv).result = Except.ok ()) := by
  constructor
  · intro hp hn
    have h := call_out_of_range evaluation load model inv hp hn
    have hobj : ∀ ev ∈ (DairyFarmFilterOCDPO.call evaluation load model inv).trace,
        ev.obj? = none := by
      rw [h.2]
      exact prologue_obj evaluation model inv
    refine ⟨?_, h.1, (filter_obj_eq_nil _ hobj).2, hobj⟩
    unfold substr
    rw [if_pos (by omega)]
  · intro hn
    constructor
    · unfold substr
      rw [if_neg (by omega)]
    · cases hp : (DairyFarmFilterOCDPO.prediction load model inv).lt FILTER_THRESHOLD with
      | false => exact (call_filtered evaluation load model inv hp).1
      | true => exact (call_forward evaluation load model inv hp hn).1

/-- Witness for C9: the key frame/7 has 7 characters; prefix length 9 fails
and sends nothing, prefix length 6 succeeds. -/
theorem long_prefix_fails_before_sending_witness :
    ((DairyFarmFilterOCDPO.prediction sample_load none sample_invocation_prefix9).lt
        FILTER_THRESHOLD = true
      ∧ sample_invocation_prefix9.key_string.length
          < sample_invocation_prefix9.prefix_length
      ∧ (DairyFarmFilterOCDPO.call false sample_load none sample_invocation_prefix9).result
          = Except.error CppException.out_of_range
      ∧ (DairyFarmFilterOCDPO.call false sample_load none
          sample_invocation_prefix9).trace.filter Event.isContextOp = [])
    ∧ (sample_invocation.prefix_length ≤ sample_invocation.key_string.length
      ∧ (DairyFarmFilterOCDPO.call false sample_load none sample_invocation).result
          = Except.ok ()) :=
  ⟨⟨by decide!, by decide,
      ((long_prefix_fails_before_sending false sample_load none
        sample_invocation_prefix9).1 (by decide!) (by decide)).2.1,
      ((long_prefix_fails_before_sending false sample_load none
        sample_invocation_prefix9).1 (by decide!) (by decide)).2.2.1⟩,
    ⟨by decide,
      ((long_prefix_fails_before_sending false sample_load none sample_invocation).2
        (by decide)).2⟩⟩

/-- C4, as stated, fails.  For frame 7 with prefix length 6 and the single
edge (out/, false), a prediction of one half gives one `put_and_forget`
whose object has key out/7, not frame/7; and with a prediction of nineteen
twentieths the call for frame 7 with the single edge (frame/, false) issues
no `put_and_forget` at all. -/
theorem frame_key_not_carried_unchanged :
    (DairyFarmFilterOCDPO.call false sample_load none
        (frame_invocation 7 6 "out/".toList false)).trace.filter Event.isContextOp
      = [Event.put_and_forget
          { key := "out/7".toList, blob := { bytes := [7, 0, 255], size := 3 },
            message_id := 0 }]
    ∧ "out/7".toList ≠ frame_key 7
    ∧ (DairyFarmFilterOCDPO.call false sample_load_high none
        (frame_invocation 7 6 "frame/".toList false)).trace.filter Event.isContextOp
      = [] := by
  refine ⟨by decide!, by decide, by decide!⟩

/-- C4, amended: take for every i below 100 an invocation with key frame/i,
a prefix length within the key, a single output edge `(d i, false)` and a
prediction below the threshold.  In either build each such call, entered
with the cache empty or holding the loaded model, issues exactly one
`put_and_forget` and no other context operation, on an object with key `d i`
followed by the key without its first `prefix_length` characters and with
the blob of the incoming object; that key is frame/i itself when `d i` is
that prefix of the key.  The 100 calls made one after the other on a thread
issue exactly 100 context operations, those `put_and_forget` calls in
order. -/
theorem frame_scenario_hundred_put_and_forget (evaluation : Bool) (load : String → Model)
    (inv : Nat → Invocation) (d : Nat → CppString)
    (hkey : ∀ i < 100, (inv i).key_string = frame_key i)
    (hout : ∀ i < 100, (inv i).outputs = [(d i, false)])
    (hn : ∀ i < 100, (inv i).prefix_length ≤ (frame_key i).length)
    (hp : ∀ i < 100,
      ((load CONF_FILTER_MODEL).predict (inv i).value.blob).lt FILTER_THRESHOLD = true) :
    (∀ i < 100, ∀ model : Option Model,
      model.getD (load CONF_FILTER_MODEL) = load CONF_FILTER_MODEL →
      ∃ o : ObjectWithStringKey,
        (DairyFarmFilterOCDPO.call evaluation load model (inv i)).trace.filter
            Event.isContextOp = [Event.put_and_forget o]
        ∧ o.key = d i ++ (frame_key i).drop (inv i).prefix_length
        ∧ o.blob = (inv i).value.blob
        ∧ (d i = (frame_key i).take (inv i).prefix_length → o.key = frame_key i))
    ∧ (DairyFarmFilterOCDPO.calls evaluation load none ((List.range 100).map inv)).map
          (fun o => o.trace.filter Event.isContextOp)
        = (List.range 100).map (fun i =>
            [Event.put_and_forget
              (output_object evaluation ((frame_key i).drop (inv i).prefix_length)
                (inv i).value (d i))])
    ∧ ((DairyFarmFilterOCDPO.calls evaluation load none ((List.range 100).map inv)).map
          (fun o => o.trace.filter Event.isContextOp)).flatten.length = 100 := by
  have hseq : (DairyFarmFilterOCDPO.calls evaluation load none
        ((List.range 100).map inv)).map (fun o => o.trace.filter Event.isContextOp)
      = (List.range 100).map (fun i =>
          [Event.put_and_forget
            (output_object evaluation ((frame_key i).drop (inv i).prefix_length)
              (inv i).value (d i))]) := by
    rw [calls_contextOps evaluation load none rfl, List.map_map]
    · apply List.map_congr_left
      intro i hi
      have hi : i < 100 := List.mem_range.mp hi
      simp only [Function.comp, hout i hi, hkey i hi, List.map_cons, List.map_nil,
        Bool.false_eq_true, if_false]
    · intro v hv
      obtain ⟨i, hi, rfl⟩ := List.mem_map.mp hv
      exact hp i (List.mem_range.mp hi)
    · intro v hv
      obtain ⟨i, hi, rfl⟩ := List.mem_map.mp hv
      rw [hkey i (List.mem_range.mp hi)]
      exact hn i (List.mem_range.mp hi)
  refine ⟨?_, hseq, ?_⟩
  · intro i hi model hmodel
    have hpred : (DairyFarmFilterOCDPO.prediction load model (inv i)).lt FILTER_THRESHOLD
        = true := by
      cases model with
      | none => exact hp i hi
      | some m =>
        simp only [Option.getD_some] at hmodel
        simp only [DairyFarmFilterOCDPO.prediction, load_model_once, hmodel]
        exact hp i hi
    refine ⟨output_object evaluation ((frame_key i).drop (inv i).prefix_length)
      (inv i).value (d i), ?_, output_object_key _ _ _ _, output_object_blob _ _ _ _, ?_⟩
    · rw [call_forward_contextOps evaluation load model (inv i) hpred
        (by rw [hkey i hi]; exact hn i hi), hout i hi, hkey i hi]
      rfl
    · intro hd
      rw [output_object_key, hd, List.take_append_drop]
  · rw [hseq, flatten_map_singleton, List.length_map, List.length_range]

/-- Witness for C4 amended: prefix length 6 and destination frame/ for every
frame, prediction one half: 100 context operations in 100 calls. -/
theorem frame_scenario_hundred_put_and_forget_witness :
    ((∀ i < 100, (frame_invocation i 6 "frame/".toList false).prefix_length
        ≤ (frame_key i).length)
      ∧ (∀ i < 100, ((sample_load CONF_FILTER_MODEL).predict
          (frame_invocation i 6 "frame/".toList false).value.blob).lt FILTER_THRESHOLD = true))
    ∧ ((DairyFarmFilterOCDPO.calls true sample_load none
          ((List.range 100).map (fun i => frame_invocation i 6 "frame/".toList false))).map
          (fun o => o.trace.filter Event.isContextOp)).flatten.length = 100 :=
  ⟨⟨fun i _ => by simp [frame_invocation, frame_key],
      fun i _ => by
        show (CFloat.finite (1 / 2)).lt FILTER_THRESHOLD = true
        decide!⟩,
    (frame_scenario_hundred_put_and_forget true sample_load
      (fun i => frame_invocation i 6 "frame/".toList false) (fun _ => "frame/".toList)
      (fun _ _ => rfl) (fun _ _ => rfl)
      (fun i _ => by simp [frame_invocation, frame_key])
      (fun i _ => by
        show (CFloat.finite (1 / 2)).lt FILTER_THRESHOLD = true
        decide!)).2.2⟩

end derecho.cascade
